import Mathlib

/-!
Verification of the GoWork HTTP server package (src/GoWork/http/server.go,
src/GoWork/http/pkg.go) against its natural-language specification.

The Go code is shallowly embedded: each Go function becomes a Lean
definition over explicit state.  Strings are Lean `String`, request paths
are kept as `List Char` so that the suffix-stripping logic of
`path.Ext` / `strings.TrimSuffix` can be reasoned about by induction.
External runtime facilities (net.Listen, autocert.NewListener, the
net/http serving engine) are modelled as an explicit environment, since
their code is outside the repository; the repository code itself is
translated line by line.
-/

namespace GoWork

/-! ## Embedding of `path.Ext` (Go standard library, called by serveHTTP)

Go source:
  for i := len(path) - 1; i >= 0 && path[i] != '/'; i-- {
      if path[i] == '.' { return path[i:] }
  }
  return ""
The scan runs backwards from the end of the path, stops at a '/', and
returns the suffix starting at the last '.'.  `extChars` scans the
reversed character list; `acc` holds the already-scanned characters in
forward order, so that hitting '.' can return `'.' :: acc` = path[i:]. -/

def extChars (acc : List Char) : List Char → List Char
  | [] => []
  | c :: rest =>
    if c = '/' then []
    else if c = '.' then c :: acc
    else extChars (c :: acc) rest

/-- Go `path.Ext` on a path represented as a character list. -/
def pathExt (p : List Char) : List Char :=
  extChars [] p.reverse

/-- Go `strings.TrimSuffix(s, suffix)`: drop `suffix` from the end of `s`
when present, else return `s` unchanged. -/
def trimSuffix (l suf : List Char) : List Char :=
  if suf.isSuffixOf l then l.take (l.length - suf.length) else l

/-! ## Request model

The parts of `*http.Request` that serveHTTP reads or writes: the method,
the URL path, the parsed POST form, and the two headers it sets.  Header
values are `Option String`: `none` means the header is absent.  Note that
Go's `Header.Set("Content-type", ...)` canonicalises the key to
`Content-Type`, so both branches address the same `contentType` field. -/

structure Request where
  method : String
  path : List Char
  form : List (String × String)
  accept : Option String
  contentType : Option String
deriving DecidableEq, Repr

/-- Go `r.PostFormValue(key)`: the first form value for `key`, or the
empty string when the field is absent. -/
def postFormValue (form : List (String × String)) (key : String) : String :=
  match form.find? (fun kv => kv.1 = key) with
  | some kv => kv.2
  | none => ""

/-- First half of `serveHTTP`: the method-override rewrite.
Go source:
  if r.Method == http.MethodPost {
      switch v := r.PostFormValue("_method"); v {
      case http.MethodGet, http.MethodPost, http.MethodPatch, http.MethodDelete:
          r.Method = v
      }
  }
(the verb constants are "GET", "POST", "PATCH", "DELETE"). -/
def methodOverride (r : Request) : Request :=
  if r.method = "POST" then
    let v := postFormValue r.form "_method"
    if v = "GET" ∨ v = "POST" ∨ v = "PATCH" ∨ v = "DELETE" then
      { r with method := v }
    else r
  else r

/-- Second half of `serveHTTP`: extension-based content negotiation.
Go source:
  switch ext := path.Ext(r.URL.Path); ext {
  case ".json":
      r.Header.Set("Accept", "application/json")
      r.Header.Set("Content-type", "application/json")
      r.URL.Path = strings.TrimSuffix(r.URL.Path, ext)
  case ".csv":
      r.Header.Set("Accept", "text/csv")
      r.URL.Path = strings.TrimSuffix(r.URL.Path, ext)
  } -/
def extNormalize (r : Request) : Request :=
  let ext := pathExt r.path
  if ext = ".json".data then
    { r with accept := some "application/json",
             contentType := some "application/json",
             path := trimSuffix r.path ext }
  else if ext = ".csv".data then
    { r with accept := some "text/csv",
             path := trimSuffix r.path ext }
  else r

/-- The full per-request rewrite performed by `serveHTTP` before the
request is handed to `s.router.ServeHTTP`: method override, then
extension normalisation. -/
def normalize (r : Request) : Request :=
  extNormalize (methodOverride r)

/-! ## Server model

`net.Listener` is observed by the repository code only through
`ln.Addr().(*net.TCPAddr).Port`, so a listener is modelled by its port.
The serving engine (`*http.Server`) is observed by `Close` only through
`Shutdown`, whose outcome is determined by how long the in-flight
requests still need; `Engine.drainTime` (nanoseconds) models that.  A
server that was never opened (or whose Open failed) has spawned no serve
loop, so it has no in-flight requests: drainTime 0. -/

structure Listener where
  port : Nat
deriving DecidableEq, Repr

structure Engine where
  drainTime : Nat
deriving DecidableEq, Repr

/-- Error vocabulary of the spec: BindError is the error returned by
`net.Listen` and passed through by Open; CertificateError is the
provisioning failure the spec attributes to Open in TLS mode;
ShutdownError is `context.DeadlineExceeded` from `Shutdown`. -/
inductive ServerError where
  | bindError (addr : String)
  | certificateError (domain : String)
  | shutdownError
deriving DecidableEq, Repr

/-- The external runtime.  `netListen addr` is `net.Listen("tcp", addr)`:
`none` means the bind failed (invalid address or already in use).
`autocertListener domain` is `autocert.NewListener(domain)`: in the Go
API this constructor is total — it returns a listener unconditionally and
defers certificate provisioning (and even its internal bind) to serving
time.  `certProvisionOk` is modelled from the spec: whether synchronous
certificate provisioning for the domain would succeed; the repository
code has no way to consult it, which is exactly what claim C3 is about. -/
structure Env where
  netListen : String → Option Listener
  autocertListener : String → Listener
  certProvisionOk : Bool

structure Server where
  ln : Option Listener
  engine : Engine
  Addr : String
  Domain : String
  HashKey : String
  BlockKey : String
deriving DecidableEq, Repr

/-- Go `NewServer()`: fresh engine, no listener, all configuration fields
at their zero value.  (The mux router and its single registered route
`GET /helloworld` are identical for every server and are not part of the
observable state modelled here.) -/
def NewServer : Server :=
  { ln := none, engine := { drainTime := 0 },
    Addr := "", Domain := "", HashKey := "", BlockKey := "" }

/-- Go `(s *Server) UseTLS() bool`: `s.Domain != ""`. -/
def Server.UseTLS (s : Server) : Bool :=
  s.Domain ≠ ""

/-- Go `(s *Server) Scheme() string`. -/
def Server.Scheme (s : Server) : String :=
  if s.UseTLS then "https" else "http"

/-- Go `(s *Server) Port() int`: 0 when no listener exists, else the
bound port. -/
def Server.Port (s : Server) : Nat :=
  match s.ln with
  | none => 0
  | some l => l.port

/-- Go `(s *Server) URL() string`. -/
def Server.URL (s : Server) : String :=
  let scheme := s.Scheme
  let port := s.Port
  let domain := if s.Domain ≠ "" then s.Domain else "localhost"
  if (scheme = "http" ∧ port = 80) ∨ (scheme = "https" ∧ port = 443) then
    scheme ++ "://" ++ domain
  else
    scheme ++ "://" ++ domain ++ ":" ++ toString port

/-- Go `(s *Server) Open() (err error)`:
  if s.Domain != "" { s.ln = autocert.NewListener(s.Domain) }
  else if s.ln, err = net.Listen("tcp", s.Addr); err != nil { return err }
  go s.server.Serve(s.ln)
  return nil
The error returned in the plain branch is the bind failure from
net.Listen.  The serve loop is spawned fire-and-forget and returns
nothing to the caller. -/
def Server.Open (env : Env) (s : Server) : Except ServerError Server :=
  if s.Domain ≠ "" then
    .ok { s with ln := some (env.autocertListener s.Domain) }
  else
    match env.netListen s.Addr with
    | none => .error (.bindError s.Addr)
    | some l => .ok { s with ln := some l }

/-- Go `const ShutdownTimeout = 1 * time.Second`, in nanoseconds
(`time.Duration` counts nanoseconds and `time.Second = 1000000000`). -/
def ShutdownTimeout : Nat := 1 * 1000000000

/-- Modelled from the spec and the documented net/http contract (the
`http.Server` code is outside the repository): `Shutdown(ctx)` stops
accepting new connections, waits for in-flight requests to drain, and
returns nil if they finish before ctx's deadline, else ctx's error
(`context.DeadlineExceeded`, the spec's ShutdownError).  With no
listeners and no in-flight requests (drainTime 0) it returns nil
immediately. -/
def shutdown (e : Engine) (timeout : Nat) : Except ServerError Unit :=
  if e.drainTime ≤ timeout then .ok () else .error .shutdownError

/-- Go `(s *Server) Close() error`:
  ctx, cancel := context.WithTimeout(context.Background(), ShutdownTimeout)
  defer cancel()
  return s.server.Shutdown(ctx) -/
def Server.Close (s : Server) : Except ServerError Unit :=
  shutdown s.engine ShutdownTimeout

/-- The request that `serveHTTP` forwards to `s.router.ServeHTTP`: the
server value contributes nothing to the rewrite. -/
def Server.serveDispatch (_s : Server) (r : Request) : Request :=
  normalize r

/-- The fields of a Server other than `HashKey` and `BlockKey`. -/
def coreView (s : Server) : Option Listener × Engine × String × String :=
  (s.ln, s.engine, s.Addr, s.Domain)

/-- A GET request for "/report.json.json" with no form data and no
headers. -/
def reqJsonJson : Request :=
  { method := "GET", path := "/report.json.json".data, form := [],
    accept := none, contentType := none }

/-! ## Helper lemmas about `path.Ext` and `strings.TrimSuffix` -/

/-- Whatever `extChars` returns is either empty or a suffix of the
scanned string (the scanned string is `l.reverse ++ acc`). -/
theorem extChars_suffix : ∀ (l acc : List Char),
    extChars acc l = [] ∨ ∃ p, l.reverse ++ acc = p ++ extChars acc l
  | [], _ => Or.inl rfl
  | c :: rest, acc => by
    by_cases h1 : c = '/'
    · exact Or.inl (by simp [extChars, h1])
    · by_cases h2 : c = '.'
      · refine Or.inr ⟨rest.reverse, ?_⟩
        simp [extChars, h1, h2]
      · rcases extChars_suffix rest (c :: acc) with h | ⟨p, hp⟩
        · exact Or.inl (by simp [extChars, h1, h2, h])
        · refine Or.inr ⟨p, ?_⟩
          have hstep : extChars acc (c :: rest) = extChars (c :: acc) rest := by
            simp [extChars, h1, h2]
          rw [hstep, ← hp]
          simp

/-- `path.Ext p` is empty or a suffix of `p`. -/
theorem pathExt_suffix (p : List Char) :
    pathExt p = [] ∨ ∃ q, p = q ++ pathExt p := by
  rcases extChars_suffix p.reverse [] with h | ⟨q, hq⟩
  · exact Or.inl h
  · refine Or.inr ⟨q, ?_⟩
    simpa [pathExt] using hq

/-- A path ending in ".json" has extension ".json". -/
theorem pathExt_json (q : List Char) :
    pathExt (q ++ ".json".data) = ".json".data := by
  show extChars [] (q ++ ".json".data).reverse = _
  rw [show ".json".data = ['.', 'j', 's', 'o', 'n'] from rfl]
  simp [List.reverse_append, extChars]

/-- A path ending in ".csv" has extension ".csv". -/
theorem pathExt_csv (q : List Char) :
    pathExt (q ++ ".csv".data) = ".csv".data := by
  show extChars [] (q ++ ".csv".data).reverse = _
  rw [show ".csv".data = ['.', 'c', 's', 'v'] from rfl]
  simp [List.reverse_append, extChars]

/-- `strings.TrimSuffix` removes a suffix that is present. -/
theorem trimSuffix_append (q suf : List Char) :
    trimSuffix (q ++ suf) suf = q := by
  unfold trimSuffix
  rw [if_pos (List.isSuffixOf_iff_suffix.mpr ⟨q, rfl⟩)]
  simp [List.length_append, List.take_left]

/-- The method-override pass touches only the method field. -/
theorem methodOverride_fields (r : Request) :
    (methodOverride r).path = r.path ∧ (methodOverride r).form = r.form ∧
    (methodOverride r).accept = r.accept ∧
    (methodOverride r).contentType = r.contentType := by
  unfold methodOverride
  split
  · dsimp only
    split <;> simp
  · simp

/-- The extension pass never changes the method. -/
theorem extNormalize_method (r : Request) :
    (extNormalize r).method = r.method := by
  unfold extNormalize
  dsimp only
  split
  · simp
  · split <;> simp

/-! ## Claims -/

/-- C1: for every inbound request, if the method is POST and the form
field `_method` has one of the values GET, POST, PATCH, DELETE, the
effective method used for routing becomes that value; for any other
value of `_method` and for every non-POST request, the method used for
routing is unchanged. -/
theorem claim_C1 (r : Request) :
    (r.method = "POST" →
      ((postFormValue r.form "_method" = "GET" ∨
        postFormValue r.form "_method" = "POST" ∨
        postFormValue r.form "_method" = "PATCH" ∨
        postFormValue r.form "_method" = "DELETE") →
        (normalize r).method = postFormValue r.form "_method") ∧
      (¬ (postFormValue r.form "_method" = "GET" ∨
          postFormValue r.form "_method" = "POST" ∨
          postFormValue r.form "_method" = "PATCH" ∨
          postFormValue r.form "_method" = "DELETE") →
        (normalize r).method = "POST")) ∧
    (r.method ≠ "POST" → (normalize r).method = r.method) := by
  simp only [normalize, extNormalize_method]
  unfold methodOverride
  refine ⟨fun hp => ⟨fun hv => ?_, fun hv => ?_⟩, fun hp => ?_⟩
  · rw [if_pos hp]
    dsimp only
    rw [if_pos hv]
  · rw [if_pos hp]
    dsimp only
    rw [if_neg hv]
    exact hp
  · rw [if_neg hp]

/-- C1 witness: a POST request carrying `_method=DELETE` is routed with
method DELETE. -/
theorem claim_C1_witness :
    (normalize { method := "POST", path := "/x".data,
                 form := [("_method", "DELETE")],
                 accept := none, contentType := none }).method = "DELETE" :=
  ((claim_C1 _).1 rfl).1 (by decide)

/-- C2: if the request path ends with ".json" the normalizer sets both
the Accept and Content-Type headers to "application/json" and strips the
".json" suffix from the dispatch path; else if it ends with ".csv" it
sets Accept to "text/csv", leaves Content-Type untouched, and strips the
".csv" suffix; else path and headers are unchanged. -/
theorem claim_C2 (r : Request) :
    (".json".data <:+ r.path →
      (normalize r).accept = some "application/json" ∧
      (normalize r).contentType = some "application/json" ∧
      (normalize r).path ++ ".json".data = r.path) ∧
    (¬ ".json".data <:+ r.path → ".csv".data <:+ r.path →
      (normalize r).accept = some "text/csv" ∧
      (normalize r).contentType = r.contentType ∧
      (normalize r).path ++ ".csv".data = r.path) ∧
    (¬ ".json".data <:+ r.path → ¬ ".csv".data <:+ r.path →
      (normalize r).path = r.path ∧
      (normalize r).accept = r.accept ∧
      (normalize r).contentType = r.contentType) := by
  obtain ⟨hpath, hform, hacc, hct⟩ := methodOverride_fields r
  refine ⟨fun hj => ?_, fun hnj hc => ?_, fun hnj hnc => ?_⟩
  · obtain ⟨t, ht⟩ := hj
    have hext : pathExt (methodOverride r).path = ".json".data := by
      rw [hpath, ← ht]
      exact pathExt_json t
    unfold normalize extNormalize
    dsimp only
    rw [if_pos hext]
    refine ⟨rfl, rfl, ?_⟩
    show trimSuffix (methodOverride r).path (pathExt (methodOverride r).path)
        ++ ".json".data = r.path
    rw [hext, hpath, ← ht, trimSuffix_append]
  · obtain ⟨t, ht⟩ := hc
    have hext : pathExt (methodOverride r).path = ".csv".data := by
      rw [hpath, ← ht]
      exact pathExt_csv t
    have hne : pathExt (methodOverride r).path ≠ ".json".data := by
      rw [hext]; decide
    unfold normalize extNormalize
    dsimp only
    rw [if_neg hne, if_pos hext]
    refine ⟨rfl, hct, ?_⟩
    show trimSuffix (methodOverride r).path (pathExt (methodOverride r).path)
        ++ ".csv".data = r.path
    rw [hext, hpath, ← ht, trimSuffix_append]
  · have hne1 : pathExt (methodOverride r).path ≠ ".json".data := by
      intro h
      rcases pathExt_suffix (methodOverride r).path with h0 | ⟨q, hq⟩
      · rw [h] at h0
        exact absurd h0 (by decide)
      · rw [h, hpath] at hq
        exact hnj ⟨q, hq.symm⟩
    have hne2 : pathExt (methodOverride r).path ≠ ".csv".data := by
      intro h
      rcases pathExt_suffix (methodOverride r).path with h0 | ⟨q, hq⟩
      · rw [h] at h0
        exact absurd h0 (by decide)
      · rw [h, hpath] at hq
        exact hnc ⟨q, hq.symm⟩
    unfold normalize extNormalize
    dsimp only
    rw [if_neg hne1, if_neg hne2]
    exact ⟨hpath, hacc, hct⟩

/-- C2 witness: "/report.json" is dispatched as "/report" with both
negotiation headers set to "application/json". -/
theorem claim_C2_witness :
    (normalize { method := "GET", path := "/report.json".data, form := [],
                 accept := none, contentType := none }).accept
        = some "application/json" ∧
    (normalize { method := "GET", path := "/report.json".data, form := [],
                 accept := none, contentType := none }).path
        ++ ".json".data = "/report.json".data :=
  ⟨((claim_C2 _).1 (by decide)).1, ((claim_C2 _).1 (by decide)).2.2⟩

/-- C3 counterexample: the claim as stated is false on the code.  In TLS
mode (Domain non-empty) `Open` calls `autocert.NewListener`, whose API is
total and defers provisioning, so even when synchronous certificate
provisioning would fail (`certProvisionOk = false`) `Open` returns
success instead of a CertificateError: the first conjunct fails at the
concrete server with Domain "example.com". -/
theorem claim_C3_counterexample :
    ¬ ((∀ (env : Env) (s : Server), s.Domain ≠ "" → env.certProvisionOk = false →
          ∃ d, Server.Open env s = .error (.certificateError d)) ∧
       (∀ (env : Env) (s : Server), s.Domain = "" → env.netListen s.Addr = none →
          Server.Open env s = .error (.bindError s.Addr))) := by
  intro h
  obtain ⟨d, hd⟩ := h.1
    ⟨fun _ => none, fun _ => { port := 443 }, false⟩
    ⟨none, { drainTime := 0 }, "", "example.com", "", ""⟩
    (by decide) rfl
  rw [show Server.Open ⟨fun _ => none, fun _ => { port := 443 }, false⟩
        ⟨none, { drainTime := 0 }, "", "example.com", "", ""⟩
      = Except.ok ⟨some { port := 443 }, { drainTime := 0 }, "", "example.com", "", ""⟩
    from rfl] at hd
  exact Except.noConfusion hd

/-- C3 (amended): in plain-TCP mode (Domain empty) `Open` returns the
bind error from net.Listen when the address is invalid or already in
use, and succeeds with the bound listener otherwise; in TLS mode (Domain
non-empty) `Open` never fails synchronously — `autocert.NewListener`
always returns a listener and defers certificate provisioning, so no
CertificateError is surfaced by `Open`. -/
theorem claim_C3 (env : Env) (s : Server) :
    (s.Domain = "" → env.netListen s.Addr = none →
      Server.Open env s = .error (.bindError s.Addr)) ∧
    (s.Domain = "" → ∀ l, env.netListen s.Addr = some l →
      Server.Open env s = .ok { s with ln := some l }) ∧
    (s.Domain ≠ "" →
      Server.Open env s = .ok { s with ln := some (env.autocertListener s.Domain) }) := by
  refine ⟨fun h0 hl => ?_, fun h0 l hl => ?_, fun h0 => ?_⟩
  · unfold Server.Open
    rw [if_neg (by simp [h0]), hl]
  · unfold Server.Open
    rw [if_neg (by simp [h0]), hl]
  · unfold Server.Open
    rw [if_pos h0]

/-- C3 witness: in TLS mode Open installs the autocert listener and
returns success. -/
theorem claim_C3_witness :
    Server.Open ⟨fun _ => none, fun _ => { port := 443 }, true⟩
        ⟨none, { drainTime := 0 }, "", "example.com", "", ""⟩
      = Except.ok ⟨some { port := 443 }, { drainTime := 0 }, "", "example.com", "", ""⟩ :=
  (claim_C3 ⟨fun _ => none, fun _ => { port := 443 }, true⟩
      ⟨none, { drainTime := 0 }, "", "example.com", "", ""⟩).2.2 (by decide)

/-- C4: Close() on a Server on which Open was never called (or failed)
is safe: such a server has spawned no serve loop, hence has no in-flight
requests (drainTime 0), and `Shutdown` returns nil immediately. -/
theorem claim_C4 (s : Server) (h : s.engine.drainTime = 0) :
    Server.Close s = Except.ok () := by
  unfold Server.Close shutdown
  rw [if_pos (by rw [h]; exact Nat.zero_le _)]

/-- C4 witness: Close on a freshly constructed, never-opened server
returns nil. -/
theorem claim_C4_witness : Server.Close NewServer = Except.ok () :=
  claim_C4 NewServer rfl

/-- C5: Close allows in-flight requests up to ShutdownTimeout, which is
exactly 1 second (1000000000 ns), to finish; it returns a ShutdownError
if and only if the drain outlasts the timeout, and nil otherwise. -/
theorem claim_C5 (s : Server) :
    ShutdownTimeout = 1000000000 ∧
    (Server.Close s = Except.ok () ↔ s.engine.drainTime ≤ ShutdownTimeout) ∧
    (Server.Close s = Except.error ServerError.shutdownError ↔
      ShutdownTimeout < s.engine.drainTime) := by
  refine ⟨rfl, ?_, ?_⟩
  · unfold Server.Close shutdown
    split <;> rename_i h <;> simp [h]
  · unfold Server.Close shutdown
    split <;> rename_i h
    · simp only [reduceCtorEq, false_iff]
      omega
    · simp only [Except.error.injEq, true_iff]
      omega

/-- C6: Scheme() returns "https" exactly when Domain is non-empty and
"http" exactly when Domain is empty. -/
theorem claim_C6 (s : Server) :
    (s.Scheme = "https" ↔ s.Domain ≠ "") ∧ (s.Scheme = "http" ↔ s.Domain = "") := by
  unfold Server.Scheme Server.UseTLS
  by_cases h : s.Domain = "" <;> simp [h]

/-- C7: URL() composes scheme://host[:port], with host = Domain when
non-empty else "localhost", omitting the ":port" suffix exactly when
(scheme "http", port 80) or (scheme "https", port 443). -/
theorem claim_C7 (s : Server) :
    ((s.Scheme = "http" ∧ s.Port = 80) ∨ (s.Scheme = "https" ∧ s.Port = 443) →
      s.URL = s.Scheme ++ "://" ++ (if s.Domain = "" then "localhost" else s.Domain)) ∧
    (¬ ((s.Scheme = "http" ∧ s.Port = 80) ∨ (s.Scheme = "https" ∧ s.Port = 443)) →
      s.URL = s.Scheme ++ "://" ++ (if s.Domain = "" then "localhost" else s.Domain)
        ++ ":" ++ toString s.Port) := by
  have hdom : (if s.Domain ≠ "" then s.Domain else "localhost")
      = (if s.Domain = "" then "localhost" else s.Domain) := by
    by_cases hd : s.Domain = "" <;> simp [hd]
  constructor <;> intro h <;> unfold Server.URL <;> dsimp only
  · rw [if_pos h, hdom]
  · rw [if_neg h, hdom]

/-- C7 witness: an http server bound to port 8080 includes the port in
its URL. -/
theorem claim_C7_witness :
    Server.URL ⟨some { port := 8080 }, { drainTime := 0 }, "", "", "", ""⟩
      = "http://localhost:8080" := by
  have h := (claim_C7 ⟨some { port := 8080 }, { drainTime := 0 }, "", "", "", ""⟩).2
    (by decide)
  rw [h]
  decide

/-- C8: two Server values that differ only in HashKey and/or BlockKey
behave identically under every core operation: request normalisation and
dispatch, Open (compared on the key-independent fields of the resulting
state), Close, Port, Scheme and URL. -/
theorem claim_C8 (env : Env) (s t : Server) (r : Request)
    (h : coreView s = coreView t) :
    s.serveDispatch r = t.serveDispatch r ∧
    s.Port = t.Port ∧ s.Scheme = t.Scheme ∧ s.URL = t.URL ∧
    Server.Close s = Server.Close t ∧
    (Server.Open env s).map coreView = (Server.Open env t).map coreView := by
  obtain ⟨h1, h2, h3, h4⟩ :
      s.ln = t.ln ∧ s.engine = t.engine ∧ s.Addr = t.Addr ∧ s.Domain = t.Domain := by
    simpa [coreView, Prod.ext_iff] using h
  refine ⟨rfl, ?_, ?_, ?_, ?_, ?_⟩
  · unfold Server.Port
    rw [h1]
  · unfold Server.Scheme Server.UseTLS
    rw [h4]
  · unfold Server.URL
    dsimp only
    unfold Server.Scheme Server.UseTLS Server.Port
    rw [h1, h4]
  · unfold Server.Close
    rw [h2]
  · unfold Server.Open
    rw [h3, h4]
    by_cases hdom : t.Domain = ""
    · rw [if_neg (by simp [hdom]), if_neg (by simp [hdom])]
      cases env.netListen t.Addr <;> simp [Except.map, coreView, h1, h2, h3, h4]
    · rw [if_pos hdom, if_pos hdom]
      simp [Except.map, coreView, h1, h2, h3, h4]

/-- C8 witness: two servers differing only in their key fields report
the same URL. -/
theorem claim_C8_witness :
    Server.URL ⟨none, { drainTime := 0 }, "", "", "key1", "block1"⟩
      = Server.URL ⟨none, { drainTime := 0 }, "", "", "key2", "block2"⟩ :=
  (claim_C8 ⟨fun _ => none, fun _ => { port := 443 }, true⟩
      ⟨none, { drainTime := 0 }, "", "", "key1", "block1"⟩
      ⟨none, { drainTime := 0 }, "", "", "key2", "block2"⟩
      ⟨"GET", [], [], none, none⟩ (by decide)).2.2.2.1

/-- C9: a never-opened server with empty Domain has Port 0, and since 0
is neither 80 nor 443 its URL includes the ":0" suffix:
"http://localhost:0". -/
theorem claim_C9 (s : Server) (h1 : s.ln = none) (h2 : s.Domain = "") :
    s.Port = 0 ∧ s.URL = "http://localhost:0" := by
  have hp : s.Port = 0 := by
    unfold Server.Port
    rw [h1]
  have hs : s.Scheme = "http" := by
    unfold Server.Scheme Server.UseTLS
    rw [h2]
    rfl
  refine ⟨hp, ?_⟩
  unfold Server.URL
  dsimp only
  rw [if_neg (by rw [hs, hp]; decide), hs, hp, h2]
  decide

/-- C9 witness: the freshly constructed server evaluates to exactly that
URL. -/
theorem claim_C9_witness : NewServer.Port = 0 ∧ NewServer.URL = "http://localhost:0" :=
  claim_C9 NewServer rfl rfl

/-- C10: the normalizer examines only the final extension and strips at
most one suffix: "/report.json.json" is dispatched as "/report.json"
(with the JSON headers set), not "/report", so one application of the
normalizer differs from iterating it to a fixed point. -/
theorem claim_C10 :
    (normalize reqJsonJson).path = "/report.json".data ∧
    (normalize reqJsonJson).accept = some "application/json" ∧
    (normalize reqJsonJson).contentType = some "application/json" ∧
    normalize (normalize reqJsonJson) ≠ normalize reqJsonJson := by
  decide

end GoWork
